import Mathlib

/-!
Shallow embedding of the key/model failover dispatcher and the response
interpreter of `src/app.EN.py`.  The second source file,
`src/unnamed/part_000`, contains the very same four functions verbatim
(`generate_content_with_failover`, `clean_json`, `calculate_overall`,
`process_response`), so one embedding covers both.

Conventions:
* Python strings are Lean `String`s (worked on as `List Char`).
* A raised Python exception is `Except.error e` where `e` is `str(e)`.
* Python floats produced from band scores are modelled as exact rationals
  (`ℚ`); for half-step band scores every operation performed by the code
  (`sum`, `/ 4`, comparisons with `0.25` / `0.75`) is exact in binary
  floating point, so the rational model agrees with the Python semantics
  on the values the program manipulates.
* The external generative service is an oracle: per credential, the
  outcome of `genai.list_models()` and of `generate_content`.
-/

/- ===================== generic string helpers ===================== -/

/-- If `p` is literally a prefix of `s`, return the remainder of `s`. -/
def listPrefixRest (p s : List Char) : Option (List Char) :=
  match p, s with
  | [], s => some s
  | _ :: _, [] => none
  | a :: ps, b :: ss => if a == b then listPrefixRest ps ss else none

/-- Split `s` at the first occurrence of `needle`:
`some (before, after)` with `s = before ++ needle ++ after`
(first occurrence, so `needle` does not start inside `before ++ needle`
before its end), or `none` when `needle` never occurs. -/
def splitAtSub (needle : List Char) : List Char → Option (List Char × List Char)
  | [] =>
    match listPrefixRest needle [] with
    | some r => some ([], r)
    | none => none
  | c :: s =>
    match listPrefixRest needle (c :: s) with
    | some r => some ([], r)
    | none =>
      match splitAtSub needle s with
      | some (b, a) => some (c :: b, a)
      | none => none

/-- Python's substring test `needle in hay`. -/
def strContains (hay needle : String) : Bool :=
  (splitAtSub needle.toList hay.toList).isSome

/-- Python `str.lower()` (ASCII case mapping, which is all the source's
needles `"quota"` / `"limit"` and error strings need). -/
def strLower (s : String) : String := String.mk (s.toList.map Char.toLower)

/- ===================== the failover dispatcher =====================
   src/app.EN.py lines 34-119 (identical in src/unnamed/part_000 lines
   35-120). -/

abbrev Credential := String

/-- Observable behaviour of the external service for one credential:
the outcome of `genai.list_models()` (the list of model names that
support `generateContent`), and the outcome of
`temp_model.generate_content` as a function of the selected model name.
`Except.error e` stands for a raised exception with `str(e) = e`. -/
structure KeyBehavior where
  listModels : Except String (List String)
  generate : String → Except String String

/-- The static ranked `model_priority` list (lines 40-50; the commented
out entries are not part of the list). -/
def model_priority : List String :=
  ["gemini-3-flash-preview", "gemini-2.5-flash", "gemini-2.5-flash-lite",
   "gemini-2.0-flash", "gemini-1.5-pro", "gemini-1.5-flash"]

/-- Model selection (lines 60-68): walk `model_priority` top to bottom and
pick the first `target` with `any(target in m_name for m_name in
available_models)`; if none matches, fall back to `"gemini-1.5-flash"`. -/
def selectModel (available_models : List String) : String :=
  match model_priority.find?
      (fun target => available_models.any (fun m_name => strContains m_name target)) with
  | some t => t
  | none => "gemini-1.5-flash"

/-- The body of the `try` block for one credential (lines 54-109): list the
models (may raise), select `sel_model`, issue one generation call (may
raise), and on success return `(response, sel_model)`. -/
def attemptKey (b : KeyBehavior) : Except String (String × String) :=
  match b.listModels with
  | .error e => .error e
  | .ok avail =>
    match b.generate (selectModel avail) with
    | .error e => .error e
    | .ok resp => .ok (resp, selectModel avail)

/-- The retryable-error classification of line 113:
`"429" in last_error or "quota" in last_error.lower() or "limit" in
last_error.lower()`. -/
def isQuotaError (e : String) : Bool :=
  strContains e "429" || strContains (strLower e) "quota" || strContains (strLower e) "limit"

/-- State observable after the credential loop: the value returned by a
`return` inside the loop (if any), the number of credentials whose `try`
block was entered, and the final `last_error`. -/
structure LoopOutcome where
  result : Option (String × String)
  attempted : Nat
  lastError : String
deriving DecidableEq

/-- The credential loop of lines 53-116, with the attempt counter and
`last_error` threaded explicitly. -/
def failoverLoop (behave : Credential → KeyBehavior) :
    List Credential → Nat → String → LoopOutcome
  | [], attempted, le => ⟨none, attempted, le⟩
  | k :: rest, attempted, le =>
    match attemptKey (behave k) with
    | .ok v => ⟨some v, attempted + 1, le⟩
    | .error e =>
      if isQuotaError e then failoverLoop behave rest (attempted + 1) e
      else ⟨none, attempted + 1, e⟩

/-- The `st.error` message of line 118: it interpolates
`len(keys_to_try)` (the total number of keys) and `last_error`. -/
def errorBannerMsg (total : Nat) (lastError : String) : String :=
  "❌ All " ++ toString total ++ " Keys have exceeded their quota. Last error: " ++ lastError

/-- Full observable outcome of `generate_content_with_failover`: the
returned pair (`none` models the Python `return None, None`), the number
of credentials attempted, and the `st.error` banner (emitted exactly on
the fall-through failure path). -/
structure DispatchResult where
  result : Option (String × String)
  attempted : Nat
  banner : Option String
deriving DecidableEq

/-- `generate_content_with_failover` for a given (already shuffled)
traversal order `keys_to_try` and service behaviour `behave`. -/
def generate_content_with_failover (keys_to_try : List Credential)
    (behave : Credential → KeyBehavior) : DispatchResult :=
  let o := failoverLoop behave keys_to_try 0 ""
  match o.result with
  | some v => ⟨some v, o.attempted, none⟩
  | none => ⟨none, o.attempted, some (errorBannerMsg keys_to_try.length o.lastError)⟩

/-- The process-wide state the function reads: `ALL_KEYS` (line 32). -/
structure Globals where
  ALL_KEYS : List Credential

/-- Lines 36-37 plus the call: `keys_to_try = list(ALL_KEYS)` copies the
collection and `random.shuffle(keys_to_try)` permutes only the copy
(modelled by an arbitrary `shuffle` function supplied by the random
number generator); the global state is returned unchanged alongside the
dispatch outcome. -/
def dispatch_with_globals (g : Globals) (shuffle : List Credential → List Credential)
    (behave : Credential → KeyBehavior) : Globals × DispatchResult :=
  let keys_to_try := shuffle g.ALL_KEYS
  (g, generate_content_with_failover keys_to_try behave)

/- ===================== the response interpreter =====================
   src/app.EN.py lines 625-716 (identical in src/unnamed/part_000 lines
   530-621). -/

/-- Whitespace for Python's `str.strip()` and the regex class `\s`
(ASCII portion, which covers the source's inputs). -/
def isPySpace (c : Char) : Bool :=
  [' ', '\t', '\n', '\r', '\x0b', '\x0c'].contains c

/-- The character class removed by `re.sub(r'[\x00-\x1F\x7F-\x9F]', '', ...)`
in `clean_json`. -/
def isCtrlChar (c : Char) : Bool :=
  c.toNat ≤ 0x1F || (0x7F ≤ c.toNat && c.toNat ≤ 0x9F)

/-- Python `str.strip()` on a character list. -/
def stripChars (l : List Char) : List Char :=
  ((l.dropWhile isPySpace).reverse.dropWhile isPySpace).reverse

/-- Python `str.strip()`. -/
def pyStrip (s : String) : String := String.mk (stripChars s.toList)

/-- `clean_json` (lines 625-632): `re.search(r"```json\s*([\s\S]*?)\s*```", text)`
takes, at the first occurrence of ```` ```json ```` that is followed by a
closing ```` ``` ````, the enclosed content (the lazy group stops at the
first closing fence; the `\s*` trimming around the group is subsumed by
the final `.strip()`), removes the control characters, and strips it.
`None` when the fenced block is absent or unterminated. -/
def clean_json (text : String) : Option String :=
  match splitAtSub "```json".toList text.toList with
  | none => none
  | some (_, rest) =>
    match splitAtSub "```".toList rest with
    | none => none
    | some (content, _) =>
      some (pyStrip (String.mk (content.filter (fun c => !isCtrlChar c))))

/-- Python truthiness of the `json_str` variable (`None` and `""` are
falsy). -/
def pyTruthyStr : Option String → Bool
  | none => false
  | some s => !s.isEmpty

/- ===================== a model of Python's json values ===================== -/

/-- The values `json.loads` can produce.  A number remembers whether the
JSON token was an integer (no fraction/exponent part ⇒ Python `int`) or
a float, because Python's `str()` renders the two differently. -/
inductive Json where
  | null : Json
  | bool (b : Bool) : Json
  | num (isInt : Bool) (val : ℚ) : Json
  | str (s : String) : Json
  | arr (elems : List Json) : Json
  | obj (fields : List (String × Json)) : Json

/-- Lookup in a parsed JSON object.  Python's `dict` keeps the *last*
value bound to a duplicated key, and `.get` reads that value. -/
def lookupLast (fields : List (String × Json)) (key : String) : Option Json :=
  match fields with
  | [] => none
  | (k, v) :: rest =>
    match lookupLast rest key with
    | some w => some w
    | none => if k == key then some v else none

/-- JSON whitespace (RFC 8259 / Python `json`). -/
def isJsonWs (c : Char) : Bool :=
  [' ', '\t', '\n', '\r'].contains c

/-- Rational addition, spelled through `mkRat` (definitionally equal to
`+` on `ℚ`, see `ratAdd_eq` below; the library's `Rat.add` is
`@[irreducible]`, which would block evaluating the embedding on concrete
inputs). -/
def ratAdd (a b : ℚ) : ℚ := mkRat (a.num * b.den + b.num * a.den) (a.den * b.den)

/-- Rational subtraction through `mkRat` (see `ratSub_eq`). -/
def ratSub (a b : ℚ) : ℚ := mkRat (a.num * b.den - b.num * a.den) (a.den * b.den)

/-- Rational multiplication through `mkRat` (see `ratMul_eq`). -/
def ratMul (a b : ℚ) : ℚ := mkRat (a.num * b.num) (a.den * b.den)

/-- Rational division through `mkRat` (see `ratDiv_eq`). -/
def ratDiv (a b : ℚ) : ℚ :=
  if 0 ≤ b.num then mkRat (a.num * b.den) (a.den * b.num.toNat)
  else mkRat (-(a.num * b.den)) (a.den * (-b.num).toNat)

/-- Sum of a list of rationals through `ratAdd` (see `ratSum_eq`). -/
def ratSum : List ℚ → ℚ
  | [] => 0
  | q :: l => ratAdd q (ratSum l)

/-- Hex digit value, `none` for a non-hex-digit. -/
def hexVal (c : Char) : Option Nat :=
  let n := c.toNat
  if 48 ≤ n ∧ n ≤ 57 then some (n - 48)
  else if 97 ≤ n ∧ n ≤ 102 then some (n - 87)
  else if 65 ≤ n ∧ n ≤ 70 then some (n - 55)
  else none

/-- Body of a JSON string after the opening quote.  Returns the decoded
content and the remainder after the closing quote.  Unescaped control
characters are rejected (Python's `strict=True`); `\uXXXX` escapes are
decoded as single code points (lone surrogates, which `Char.ofNat` maps
to a default, do not occur in the repository's data). -/
def parseStringBody : List Char → Option (List Char × List Char)
  | [] => none
  | c :: rest =>
    if c == '"' then some ([], rest)
    else if c == '\\' then
      match rest with
      | [] => none
      | e :: rest' =>
        if e == '"' then (parseStringBody rest').map (fun p => ('"' :: p.1, p.2))
        else if e == '\\' then (parseStringBody rest').map (fun p => ('\\' :: p.1, p.2))
        else if e == '/' then (parseStringBody rest').map (fun p => ('/' :: p.1, p.2))
        else if e == 'b' then (parseStringBody rest').map (fun p => ('\x08' :: p.1, p.2))
        else if e == 'f' then (parseStringBody rest').map (fun p => ('\x0c' :: p.1, p.2))
        else if e == 'n' then (parseStringBody rest').map (fun p => ('\n' :: p.1, p.2))
        else if e == 'r' then (parseStringBody rest').map (fun p => ('\r' :: p.1, p.2))
        else if e == 't' then (parseStringBody rest').map (fun p => ('\t' :: p.1, p.2))
        else if e == 'u' then
          match rest' with
          | h1 :: h2 :: h3 :: h4 :: rest'' =>
            match hexVal h1, hexVal h2, hexVal h3, hexVal h4 with
            | some a, some b, some cc, some d =>
              (parseStringBody rest'').map
                (fun p => (Char.ofNat (((a * 16 + b) * 16 + cc) * 16 + d) :: p.1, p.2))
            | _, _, _, _ => none
          | _ => none
        else none
    else if c.toNat < 0x20 then none
    else (parseStringBody rest).map (fun p => (c :: p.1, p.2))

/-- Digits prefix of `s` (as chars) and the remainder. -/
def takeDigits (s : List Char) : List Char × List Char :=
  (s.takeWhile Char.isDigit, s.dropWhile Char.isDigit)

/-- Numeric value of a (non-empty, ASCII) digit list. -/
def digitsToNat (l : List Char) : Nat :=
  l.foldl (fun acc c => acc * 10 + (c.toNat - '0'.toNat)) 0

/-- A JSON number token (strict grammar: `-? (0 | [1-9][0-9]*) frac? exp?`),
returning its exact value, whether it is an integer token, and the rest. -/
def parseNumber (s : List Char) : Option (Json × List Char) :=
  let (negSign, s1) :=
    match s with
    | '-' :: t => (true, t)
    | _ => (false, s)
  let (ip, s2) := takeDigits s1
  if ip.isEmpty then none
  else if ip.length > 1 && ip.headI = '0' then none
  else
    let (fracDigits', s3) :=
      match s2 with
      | '.' :: t =>
        let (fd, r) := takeDigits t
        (some fd, r)
      | _ => (none, s2)
    match fracDigits' with
    | some [] => none
    | _ =>
      let (expPart, s4) :=
        match s3 with
        | e :: t =>
          if e == 'e' || e == 'E' then
            let (esign, t1) :=
              match t with
              | '-' :: u => (some true, u)
              | '+' :: u => (some false, u)
              | _ => (some false, t)
            let (ed, r) := takeDigits t1
            if ed.isEmpty then (some (none : Option (Bool × Nat)), s3)
            else (some (some (esign.getD false, digitsToNat ed)), r)
          else ((none : Option (Option (Bool × Nat))), s3)
        | [] => (none, s3)
      match expPart with
      | some none => none
      | _ =>
        let fd := fracDigits'.getD []
        let mantissa : ℚ :=
          ratAdd (digitsToNat ip : ℚ) (mkRat (digitsToNat fd) (10 ^ fd.length))
        let scaled : ℚ :=
          match expPart with
          | some (some (true, n)) => ratDiv mantissa ((10 ^ n : ℕ) : ℚ)
          | some (some (false, n)) => ratMul mantissa ((10 ^ n : ℕ) : ℚ)
          | _ => mantissa
        let v : ℚ := if negSign then -scaled else scaled
        let isInt := fracDigits'.isNone && expPart.isNone
        some (.num isInt v, s4)

/-- Drop JSON whitespace. -/
def skipJsonWs (s : List Char) : List Char := s.dropWhile isJsonWs

mutual

/-- A JSON value (fuelled recursive descent; the fuel only bounds the
nesting depth, and every nested value consumes at least the character
that opened it, so `length + 1` fuel always suffices).  `NaN`/`Infinity`
extensions of Python's `json` are not modelled (they have no exact
rational value and do not occur in the repository's data). -/
def parseJsonValue : Nat → List Char → Option (Json × List Char)
  | 0, _ => none
  | fuel + 1, s =>
    match s with
    | [] => none
    | c :: rest =>
      if c == '"' then
        match parseStringBody rest with
        | some (content, r) => some (.str (String.mk content), r)
        | none => none
      else if c == '{' then
        parseJsonMembers fuel (skipJsonWs rest) true
      else if c == '[' then
        parseJsonElems fuel (skipJsonWs rest) true
      else if c == 't' then
        match listPrefixRest "rue".toList rest with
        | some r => some (.bool true, r)
        | none => none
      else if c == 'f' then
        match listPrefixRest "alse".toList rest with
        | some r => some (.bool false, r)
        | none => none
      else if c == 'n' then
        match listPrefixRest "ull".toList rest with
        | some r => some (.null, r)
        | none => none
      else parseNumber s

/-- Members of an object after `{` (whitespace already skipped);
`first` marks whether no member has been read yet. -/
def parseJsonMembers : Nat → List Char → Bool → Option (Json × List Char)
  | 0, _, _ => none
  | fuel + 1, s, first =>
    match s with
    | '}' :: r =>
      if first then some (.obj [], r) else none
    | '"' :: rest =>
      match parseStringBody rest with
      | none => none
      | some (keyChars, afterKey) =>
        match skipJsonWs afterKey with
        | ':' :: afterColon =>
          match parseJsonValue fuel (skipJsonWs afterColon) with
          | none => none
          | some (v, afterVal) =>
            match skipJsonWs afterVal with
            | ',' :: afterComma =>
              match parseJsonMembers fuel (skipJsonWs afterComma) false with
              | some (.obj fields, r) => some (.obj ((String.mk keyChars, v) :: fields), r)
              | _ => none
            | '}' :: r => some (.obj [(String.mk keyChars, v)], r)
            | _ => none
        | _ => none
    | _ => none

/-- Elements of an array after `[` (whitespace already skipped). -/
def parseJsonElems : Nat → List Char → Bool → Option (Json × List Char)
  | 0, _, _ => none
  | fuel + 1, s, first =>
    match s with
    | ']' :: r =>
      if first then some (.arr [], r) else none
    | _ =>
      match parseJsonValue fuel s with
      | none => none
      | some (v, afterVal) =>
        match skipJsonWs afterVal with
        | ',' :: afterComma =>
          match parseJsonElems fuel (skipJsonWs afterComma) false with
          | some (.arr elems, r) => some (.arr (v :: elems), r)
          | _ => none
        | ']' :: r => some (.arr [v], r)
        | _ => none

end

/-- Python `json.loads`: parse one JSON document, allowing surrounding
whitespace and nothing else; `none` models a raised `JSONDecodeError`. -/
def json_loads (s : String) : Option Json :=
  let cs := skipJsonWs s.toList
  match parseJsonValue (cs.length + 1) cs with
  | some (v, rest) => if (skipJsonWs rest).isEmpty then some v else none
  | none => none

/- ===================== Python str() / float() on these values ===================== -/

/-- Decimal digits of the fractional part `q ∈ [0,1)` (most significant
first), up to `fuel` digits; empty when `q = 0`.  Terminating decimals
(the only ones the interpreted values produce) are rendered exactly,
which matches Python's shortest-repr `str` on them. -/
def fracDigitsList : ℚ → Nat → List Char
  | _, 0 => []
  | q, fuel + 1 =>
    if q = 0 then []
    else
      let x := ratMul q 10
      let d := ⌊x⌋
      Nat.digitChar d.toNat :: fracDigitsList (ratSub x (d : ℚ)) fuel

/-- Python `str` of a float with exact rational value `q` (terminating
decimals; always at least one digit after the point, as Python prints
`7.0` for a whole float). -/
def floatRepr (q : ℚ) : String :=
  let a := if q < 0 then -q else q
  let ip := (⌊a⌋ : ℤ).toNat
  let ds := fracDigitsList (ratSub a (⌊a⌋ : ℚ)) 32
  (if q < 0 then "-" else "") ++ toString ip ++ "." ++
    (if ds.isEmpty then "0" else String.mk ds)

mutual

/-- Python `repr` of a json-derived value (used inside `str` of lists and
dicts; string escaping inside `repr` is simplified to plain quoting,
which only affects the rendering of nested containers that the grading
data never yields as score fields). -/
def reprPy : Json → String
  | .null => "None"
  | .bool true => "True"
  | .bool false => "False"
  | .num true q => toString q.num
  | .num false q => floatRepr q
  | .str s => "'" ++ s ++ "'"
  | .arr elems => "[" ++ reprPyList elems ++ "]"
  | .obj fields => "\x7b" ++ reprPyObj fields ++ "\x7d"

def reprPyList : List Json → String
  | [] => ""
  | [x] => reprPy x
  | x :: xs => reprPy x ++ ", " ++ reprPyList xs

def reprPyObj : List (String × Json) → String
  | [] => ""
  | [(k, v)] => "'" ++ k ++ "': " ++ reprPy v
  | (k, v) :: xs => "'" ++ k ++ "': " ++ reprPy v ++ ", " ++ reprPyObj xs

end

/-- Python `str` of a json-derived value: like `repr` except that a
string renders as itself. -/
def pyStr : Json → String
  | .str s => s
  | v => reprPy v

/-- Python `float(string)`: optional surrounding whitespace and sign,
then `digits [. digits] [exponent]` with at least one mantissa digit
(`inf`/`nan` literals have no rational value and are modelled as
unparseable; they never reach `calculate_overall`). -/
def pyFloatOfString (s : String) : Option ℚ :=
  let cs := stripChars s.toList
  let (negSign, s1) :=
    match cs with
    | '-' :: t => (true, t)
    | '+' :: t => ((false : Bool), t)
    | _ => (false, cs)
  let (ip, s2) := takeDigits s1
  let (fracPart, s3) :=
    match s2 with
    | '.' :: t =>
      let (fd, r) := takeDigits t
      (some fd, r)
    | _ => (none, s2)
  if ip.isEmpty && (fracPart.getD []).isEmpty then none
  else
    let (expPart, s4) :=
      match s3 with
      | e :: t =>
        if e == 'e' || e == 'E' then
          let (esign, t1) :=
            match t with
            | '-' :: u => (true, u)
            | '+' :: u => (false, u)
            | _ => (false, t)
          let (ed, r) := takeDigits t1
          if ed.isEmpty then (some (none : Option (Bool × Nat)), s3)
          else (some (some (esign, digitsToNat ed)), r)
        else ((none : Option (Option (Bool × Nat))), s3)
      | [] => (none, s3)
    match expPart with
    | some none => none
    | _ =>
      if s4.isEmpty then
        let fd := (fracPart.getD [])
        let mantissa : ℚ :=
          ratAdd (digitsToNat ip : ℚ) (mkRat (digitsToNat fd) (10 ^ fd.length))
        let scaled : ℚ :=
          match expPart with
          | some (some (true, n)) => ratDiv mantissa ((10 ^ n : ℕ) : ℚ)
          | some (some (false, n)) => ratMul mantissa ((10 ^ n : ℕ) : ℚ)
          | _ => mantissa
        some (if negSign then -scaled else scaled)
      else none

/-- Python `float(s)` applied to the values that can end up in
`found_scores`: numbers pass through, booleans coerce, strings parse,
and everything else raises (modelled as `none`, which the caller's
`except: continue` skips). -/
def pyFloatVal : Json → Option ℚ
  | .num _ q => some q
  | .bool b => some (if b then 1 else 0)
  | .str s => pyFloatOfString s
  | _ => none

/-- Python `int()` applied to a float: truncation toward zero. -/
def pyInt (q : ℚ) : ℤ :=
  if 0 ≤ q then ⌊q⌋ else -⌊-q⌋

/-- `calculate_overall` (lines 634-656): keep the scores `float()`
accepts, return `'-'` when fewer than four remain, otherwise average and
apply the band rounding `decimal < 0.25 ↦ int(avg)`,
`decimal < 0.75 ↦ int(avg) + 0.5`, else `int(avg) + 1.0`; the first
branch returns `str` of an `int`, the other two `str` of a float. -/
def calculate_overall (scores : List Json) : String :=
  let valid_scores := scores.filterMap pyFloatVal
  if valid_scores.isEmpty ∨ valid_scores.length < 4 then "-"
  else
    let avg : ℚ := ratDiv (ratSum valid_scores) (valid_scores.length : ℚ)
    let decimal : ℚ := ratSub avg (pyInt avg : ℚ)
    if decimal < mkRat 1 4 then toString (pyInt avg)
    else if decimal < mkRat 3 4 then floatRepr (ratAdd (pyInt avg : ℚ) (mkRat 1 2))
    else floatRepr (ratAdd (pyInt avg : ℚ) 1)

/- ===================== the score-line regexes =====================
   Lines 688-698: four patterns searched with `re.IGNORECASE | re.DOTALL`.

   Each pattern is a sequence of case-insensitive literals, `\s+`/`\s*`
   runs and at most one lazy gap `.*?` ending at a literal, followed by
   the capture `(\d+\.?\d*)` reached through a final lazy gap `.*?`.
   For such patterns `re.search` is equivalent to the deterministic
   procedure below:
   * a `\s+`/`\s*` run is followed by a literal starting with a
     non-whitespace character, so consuming the maximal whitespace run
     is the unique way to continue;
   * a lazy gap `X.*?Y` ends at the *first* occurrence of `Y`: if no
     digit (resp. further required literal) exists after that first
     occurrence, none exists after later occurrences either, since they
     only lie further right — so no backtracking can succeed where the
     first-occurrence parse fails;
   * the overall match is leftmost, which the position-by-position scan
     reproduces; the capture `(\d+\.?\d*)` starts at the first digit
     after the matched label and is greedy with nothing after it. -/

/-- One atom of a score-line pattern. -/
inductive RAtom where
  | lit (s : String) : RAtom
  | ws1 : RAtom
  | ws0 : RAtom
  | dotLazy (s : String) : RAtom

/-- Case-insensitive literal prefix: the remainder of `s` after the
(ASCII) case-insensitive literal `p`, if it is a prefix. -/
def ciPrefixRest (p s : List Char) : Option (List Char) :=
  match p, s with
  | [], s => some s
  | _ :: _, [] => none
  | a :: ps, b :: ss =>
    if a.toLower == b.toLower then ciPrefixRest ps ss else none

/-- Remainder of `s` after the first case-insensitive occurrence of `p`. -/
def ciFindRest (p : List Char) : List Char → Option (List Char)
  | [] =>
    match ciPrefixRest p [] with
    | some r => some r
    | none => none
  | c :: s =>
    match ciPrefixRest p (c :: s) with
    | some r => some r
    | none => ciFindRest p s

/-- Match a pattern's atoms at the current position, returning the rest. -/
def matchAtoms : List RAtom → List Char → Option (List Char)
  | [], s => some s
  | .lit l :: atoms, s =>
    match ciPrefixRest l.toList s with
    | some r => matchAtoms atoms r
    | none => none
  | .ws1 :: atoms, s =>
    match s with
    | c :: r => if isPySpace c then matchAtoms atoms (r.dropWhile isPySpace) else none
    | [] => none
  | .ws0 :: atoms, s => matchAtoms atoms (s.dropWhile isPySpace)
  | .dotLazy l :: atoms, s =>
    match ciFindRest l.toList s with
    | some r => matchAtoms atoms r
    | none => none

/-- Leftmost position where the atoms match; returns the rest after the
match. -/
def searchAtoms (atoms : List RAtom) : List Char → Option (List Char)
  | [] => matchAtoms atoms []
  | c :: s =>
    match matchAtoms atoms (c :: s) with
    | some r => some r
    | none => searchAtoms atoms s

/-- The final `.*?(\d+\.?\d*)` of every pattern: the greedy number
starting at the first digit after the label. -/
def grabNumber (s : List Char) : Option String :=
  match s.dropWhile (fun c => !c.isDigit) with
  | [] => none
  | s1 =>
    let ds := s1.takeWhile Char.isDigit
    match s1.dropWhile Char.isDigit with
    | '.' :: r2 => some (String.mk (ds ++ '.' :: r2.takeWhile Char.isDigit))
    | _ => some (String.mk ds)

/-- `re.search(pattern, text, re.IGNORECASE | re.DOTALL)` for one of the
four score patterns, returning `match.group(1)`. -/
def regexScore (atoms : List RAtom) (text : String) : Option String :=
  match searchAtoms atoms text.toList with
  | some rest => grabNumber rest
  | none => none

/-- `r"Task\s+Achievement\s*Score.*?(\d+\.?\d*)"` (without the final
capture handled by `grabNumber`). -/
def taPat : List RAtom := [.lit "Task", .ws1, .lit "Achievement", .ws0, .lit "Score"]

/-- `r"Coherence\s*&\s*Cohesion\s*Score.*?(\d+\.?\d*)"`. -/
def ccPat : List RAtom :=
  [.lit "Coherence", .ws0, .lit "&", .ws0, .lit "Cohesion", .ws0, .lit "Score"]

/-- `r"Lexical\s+Resource\s*Score.*?(\d+\.?\d*)"`. -/
def lrPat : List RAtom := [.lit "Lexical", .ws1, .lit "Resource", .ws0, .lit "Score"]

/-- `r"Grammatical\s+Range.*?Score.*?(\d+\.?\d*)"`. -/
def grPat : List RAtom := [.lit "Grammatical", .ws1, .lit "Range", .dotLazy "Score"]

/- ===================== process_response ===================== -/

/-- The four sub-score fields plus the derived overall, each a string
(`'-'` is the unavailable sentinel). -/
structure OriginalScore where
  task_achievement : String
  cohesion_coherence : String
  lexical_resource : String
  grammatical_range : String
  overall : String
deriving DecidableEq

/-- The `data` dictionary built by `process_response`.  `annotatedEssay`
and `revisedScore` start as Python `None` (= `Json.null`, which is also
what `parsed.get` yields for a missing key). -/
structure ReportData where
  errors : Json
  annotatedEssay : Json
  revisedScore : Json
  originalScore : OriginalScore

/-- `markdown_part`: reassigned to `full_text.split("```json")[0].strip()`
only under `if json_str:` (truthiness!), otherwise it stays the whole
input. -/
def markdown_of (full_text : String) : String :=
  if pyTruthyStr (clean_json full_text) then
    match splitAtSub "```json".toList full_text.toList with
    | some (before, _) => pyStrip (String.mk before)
    | none => pyStrip full_text
  else full_text

/-- Part A (lines 677-685): under `if json_str:`, `json.loads` inside a
`try` that catches only `JSONDecodeError`; a parse failure keeps the
defaults, a parsed non-dict raises `AttributeError` at `parsed.get`
(uncaught, so it escapes `process_response`), and a parsed dict supplies
`errors` / `annotated_essay` / `revised_score` with defaults `[]` /
`None` / `None`. -/
def partA_of (full_text : String) : Except String (Json × Json × Json) :=
  if pyTruthyStr (clean_json full_text) then
    match json_loads ((clean_json full_text).getD "") with
    | none => .ok (.arr [], .null, .null)
    | some parsed =>
      match parsed with
      | .obj fields =>
        .ok ((lookupLast fields "errors").getD (.arr []),
             (lookupLast fields "annotated_essay").getD .null,
             (lookupLast fields "revised_score").getD .null)
      | _ => .error "AttributeError"
  else .ok (.arr [], .null, .null)

/-- The `else` branch of the part-B loop (lines 703-711): re-parse
`json_str` and take `parsed.get("original_score", {}).get(key, "-")`,
all inside a bare `try/except: pass`.  `none` is the exception path
(nothing is written, the field keeps its `'-'` default): `json_str`
falsy, parse failure, `parsed` not a dict, or `original_score` present
but not a dict.  A missing `original_score` key defaults to `{}`, whose
lookup yields the string `"-"`. -/
def jsonSubScore (full_text : String) (key : String) : Option Json :=
  if pyTruthyStr (clean_json full_text) then
    match json_loads ((clean_json full_text).getD "") with
    | none => none
    | some parsed =>
      match parsed with
      | .obj fields =>
        match lookupLast fields "original_score" with
        | none => some (.str "-")
        | some (.obj os) => some ((lookupLast os key).getD (.str "-"))
        | some _ => none
      | _ => none
  else none

/-- One iteration of the part-B loop (lines 697-711) for a given pattern
and key: the value written to `data["originalScore"][key]` (the `'-'`
default when nothing is written) and the values appended to
`found_scores` (the regex capture as a string, or the raw json value
when `str(val) != "-"`). -/
def layerResolve (full_text : String) (atoms : List RAtom) (key : String) :
    String × List Json :=
  match regexScore atoms (markdown_of full_text) with
  | some score => (score, [.str score])
  | none =>
    match jsonSubScore full_text key with
    | none => ("-", [])
    | some val => (pyStr val, if pyStr val == "-" then [] else [val])

/-- The `found_scores` list after the part-B loop, in the loop's
iteration order (`task_achievement`, `cohesion_coherence`,
`lexical_resource`, `grammatical_range`). -/
def found_scores_of (full_text : String) : List Json :=
  (layerResolve full_text taPat "task_achievement").2 ++
  (layerResolve full_text ccPat "cohesion_coherence").2 ++
  (layerResolve full_text lrPat "lexical_resource").2 ++
  (layerResolve full_text grPat "grammatical_range").2

/-- The final `originalScore` record: the four per-key resolutions, and
`overall` recomputed by `calculate_overall` over `found_scores` when
that list is non-empty (lines 713-714), else its `'-'` default. -/
def originalScore_of (full_text : String) : OriginalScore where
  task_achievement := (layerResolve full_text taPat "task_achievement").1
  cohesion_coherence := (layerResolve full_text ccPat "cohesion_coherence").1
  lexical_resource := (layerResolve full_text lrPat "lexical_resource").1
  grammatical_range := (layerResolve full_text grPat "grammatical_range").1
  overall :=
    if (found_scores_of full_text).isEmpty then "-"
    else calculate_overall (found_scores_of full_text)

/-- `process_response` (lines 658-716): returns
`(markdown_part, data)`, or the uncaught `AttributeError` when the
fenced block parses to a non-dict. -/
def process_response (full_text : String) : Except String (String × ReportData) :=
  match partA_of full_text with
  | .error e => .error e
  | .ok (errs, ann, rev) =>
    .ok (markdown_of full_text,
         { errors := errs, annotatedEssay := ann, revisedScore := rev,
           originalScore := originalScore_of full_text })

/- ============ derived forms and concrete inputs used by the theorems ============ -/

/-- What one part-B iteration does when `json_str` is falsy: the regex
layer alone decides the field, with the `'-'` default. -/
def regexOnlyContrib (atoms : List RAtom) (text : String) : String × List Json :=
  match regexScore atoms text with
  | some s => (s, [.str s])
  | none => ("-", [])

/-- `found_scores` when `json_str` is falsy. -/
def regexOnlyFound (text : String) : List Json :=
  (regexOnlyContrib taPat text).2 ++ (regexOnlyContrib ccPat text).2 ++
  (regexOnlyContrib lrPat text).2 ++ (regexOnlyContrib grPat text).2

/-- The `originalScore` record when `json_str` is falsy: the narrative
regex layer alone, plus the recomputed overall. -/
def regexOnlyScore (text : String) : OriginalScore where
  task_achievement := (regexOnlyContrib taPat text).1
  cohesion_coherence := (regexOnlyContrib ccPat text).1
  lexical_resource := (regexOnlyContrib lrPat text).1
  grammatical_range := (regexOnlyContrib grPat text).1
  overall :=
    if (regexOnlyFound text).isEmpty then "-"
    else calculate_overall (regexOnlyFound text)

/-- A service where every credential raises a quota-style error. -/
def quotaOnlyBehavior : Credential → KeyBehavior :=
  fun _ => ⟨.error "429 Resource has been exhausted", fun _ => .error "429"⟩

/-- A service where `key-b` succeeds and every other credential raises a
quota-style error. -/
def secondKeySucceeds : Credential → KeyBehavior :=
  fun k =>
    if k == "key-b" then ⟨.ok ["models/gemini-2.5-flash-002"], fun _ => .ok "GRADED"⟩
    else ⟨.error "Quota exceeded for quota metric", fun _ => .error "quota"⟩

/-- A service where `key-1` raises a quota-style error and every other
credential raises a non-retryable one. -/
def quotaThenFatal : Credential → KeyBehavior :=
  fun k =>
    if k == "key-1" then ⟨.error "rate limit", fun _ => .error "rate limit"⟩
    else ⟨.error "Internal server error 500", fun _ => .error "Internal server error 500"⟩

/-- A service where every credential raises a non-retryable error. -/
def fatalFirstBehavior : Credential → KeyBehavior :=
  fun _ => ⟨.error "PermissionDenied: 403", fun _ => .error "PermissionDenied: 403"⟩

/-- Raw model output with a well-formed block carrying sub-scores
`[6.0, 6.0, 6.0, 7.0]` (average `6.25`). -/
def c4_text_a : String :=
  "Narrative section.\n```json\n\x7b\"original_score\": \x7b\"task_achievement\": 6.0, \"cohesion_coherence\": 6.0, \"lexical_resource\": 6.0, \"grammatical_range\": 7.0\x7d\x7d\n```"

/-- Raw model output with sub-scores `[6, 6, 7, 7]` (average `6.5`). -/
def c4_text_b : String :=
  "Narrative section.\n```json\n\x7b\"original_score\": \x7b\"task_achievement\": 6, \"cohesion_coherence\": 6, \"lexical_resource\": 7, \"grammatical_range\": 7\x7d\x7d\n```"

/-- Raw model output with sub-scores `[6, 7, 7, 7]` (average `6.75`). -/
def c4_text_c : String :=
  "Narrative section.\n```json\n\x7b\"original_score\": \x7b\"task_achievement\": 6, \"cohesion_coherence\": 7, \"lexical_resource\": 7, \"grammatical_range\": 7\x7d\x7d\n```"

/-- Raw model output with sub-scores `[6, 6, 6, 6.0]` (average `6.0`). -/
def c4_text_d : String :=
  "Narrative section.\n```json\n\x7b\"original_score\": \x7b\"task_achievement\": 6, \"cohesion_coherence\": 6, \"lexical_resource\": 6, \"grammatical_range\": 6.0\x7d\x7d\n```"

/-- A raw text without any fenced block whose narrative nevertheless
contains a labelled score line. -/
def c5_text : String := "Task Achievement Score 7"

/-- A raw text exercising both resolution layers: one score from the
narrative, one from the block, one null in the block, one absent. -/
def c6_text : String :=
  "Lexical Resource Score 8\n```json\n\x7b\"original_score\": \x7b\"task_achievement\": 6.5, \"cohesion_coherence\": null\x7d\x7d\n```"

/-- A raw text whose block reports `overall: 9.0` while its sub-scores
average to `6.5`. -/
def c7_text : String :=
  "Report.\n```json\n\x7b\"original_score\": \x7b\"task_achievement\": 6, \"cohesion_coherence\": 6, \"lexical_resource\": 7, \"grammatical_range\": 7, \"overall\": 9.0\x7d\x7d\n```"

/-- `keys` all fail with retryable (quota-style) errors. -/
def allQuotaErrs (behave : Credential → KeyBehavior) (keys : List Credential) : Prop :=
  ∀ k ∈ keys, ∃ e, attemptKey (behave k) = .error e ∧ isQuotaError e = true

/- ===================== helper lemmas ===================== -/

theorem ratAdd_eq (a b : ℚ) : ratAdd a b = a + b := by
  have ha : ((a.den : ℤ)) ≠ 0 := Int.natCast_ne_zero.mpr a.den_nz
  have hb : ((b.den : ℤ)) ≠ 0 := Int.natCast_ne_zero.mpr b.den_nz
  rw [ratAdd, Rat.mkRat_eq_divInt, Nat.cast_mul]
  conv_rhs => rw [← Rat.num_divInt_den a, ← Rat.num_divInt_den b]
  rw [Rat.divInt_add_divInt _ _ ha hb]

theorem ratSub_eq (a b : ℚ) : ratSub a b = a - b := by
  have ha : ((a.den : ℤ)) ≠ 0 := Int.natCast_ne_zero.mpr a.den_nz
  have hb : ((b.den : ℤ)) ≠ 0 := Int.natCast_ne_zero.mpr b.den_nz
  rw [ratSub, Rat.mkRat_eq_divInt, Nat.cast_mul]
  conv_rhs => rw [← Rat.num_divInt_den a, ← Rat.num_divInt_den b]
  rw [Rat.divInt_sub_divInt _ _ ha hb]

theorem ratMul_eq (a b : ℚ) : ratMul a b = a * b := by
  have ha : ((a.den : ℤ)) ≠ 0 := Int.natCast_ne_zero.mpr a.den_nz
  have hb : ((b.den : ℤ)) ≠ 0 := Int.natCast_ne_zero.mpr b.den_nz
  rw [ratMul, Rat.mkRat_eq_divInt, Nat.cast_mul]
  conv_rhs => rw [← Rat.num_divInt_den a, ← Rat.num_divInt_den b]
  rw [Rat.divInt_mul_divInt _ _ ha hb]

theorem ratDiv_eq (a b : ℚ) : ratDiv a b = a / b := by
  rw [Rat.div_def']
  by_cases h : 0 ≤ b.num
  · rw [ratDiv, if_pos h, Rat.mkRat_eq_divInt]
    congr 1
    push_cast [Int.toNat_of_nonneg h]
    ring
  · rw [ratDiv, if_neg h, Rat.mkRat_eq_divInt]
    have h' : (((-b.num).toNat : ℤ)) = -b.num := Int.toNat_of_nonneg (by omega)
    push_cast [h']
    rw [mul_neg, Rat.divInt_neg, neg_neg]

theorem ratSum_eq (l : List ℚ) : ratSum l = l.sum := by
  induction l with
  | nil => simp [ratSum]
  | cons q l ih => rw [ratSum, ratAdd_eq, ih, List.sum_cons]

theorem pyInt_eq_floor (q : ℚ) (h : 0 ≤ q) : pyInt q = ⌊q⌋ := by
  rw [pyInt, if_pos h]

theorem listPrefixRest_eq_some {p s r : List Char} :
    listPrefixRest p s = some r ↔ s = p ++ r := by
  induction p generalizing s with
  | nil => simp [listPrefixRest]
  | cons a ps ih =>
    cases s with
    | nil => simp [listPrefixRest]
    | cons b ss =>
      simp only [listPrefixRest, List.cons_append, List.cons.injEq]
      by_cases hab : (a == b) = true
      · have hab' : a = b := by exact_mod_cast eq_of_beq hab
        rw [if_pos hab, ih]
        constructor
        · intro h; exact ⟨hab'.symm, h⟩
        · intro h; exact h.2
      · rw [if_neg hab]
        constructor
        · intro h; cases h
        · intro h; exact absurd (beq_iff_eq.mpr h.1.symm) hab

theorem splitAtSub_isSome {needle s : List Char} :
    (splitAtSub needle s).isSome = true ↔ ∃ l r, s = l ++ needle ++ r := by
  induction s with
  | nil =>
    simp only [splitAtSub]
    cases h : listPrefixRest needle [] with
    | some r =>
      have : ([] : List Char) = needle ++ r := listPrefixRest_eq_some.mp h
      simp only [Option.isSome_some, true_iff]
      exact ⟨[], r, by simpa using this⟩
    | none =>
      simp only [Option.isSome_none, Bool.false_eq_true, false_iff]
      rintro ⟨l, r, hl⟩
      have hl2 : l = [] ∧ needle ++ r = [] := by
        constructor
        · cases l with
          | nil => rfl
          | cons x xs => exact absurd hl.symm (by simp)
        · cases l with
          | nil => simpa using hl.symm
          | cons x xs => exact absurd hl.symm (by simp)
      have : listPrefixRest needle [] = some r := by
        rw [listPrefixRest_eq_some]
        have h3 := hl2.2
        cases needle with
        | nil => simpa using h3.symm
        | cons n ns => exact absurd h3 (by simp)
      rw [this] at h; cases h
  | cons c s ih =>
    simp only [splitAtSub]
    cases h : listPrefixRest needle (c :: s) with
    | some r =>
      have : c :: s = needle ++ r := listPrefixRest_eq_some.mp h
      simp only [Option.isSome_some, true_iff]
      exact ⟨[], r, by simpa using this⟩
    | none =>
      cases h2 : splitAtSub needle s with
      | some p =>
        simp only [Option.isSome_some, true_iff]
        obtain ⟨l, r, hs⟩ := ih.mp (by rw [h2]; rfl)
        exact ⟨c :: l, r, by simp [hs]⟩
      | none =>
        simp only [Option.isSome_none, Bool.false_eq_true, false_iff]
        rintro ⟨l, r, hs⟩
        cases l with
        | nil =>
          have : listPrefixRest needle (c :: s) = some r := by
            rw [listPrefixRest_eq_some]; simpa using hs
          rw [this] at h; cases h
        | cons x xs =>
          have hx : c = x ∧ s = xs ++ needle ++ r := by simpa using hs
          have : (splitAtSub needle s).isSome = true := ih.mpr ⟨xs, r, hx.2⟩
          rw [h2] at this; cases this

theorem strContains_iff (hay needle : String) :
    strContains hay needle = true ↔ ∃ l r, hay.toList = l ++ needle.toList ++ r := by
  rw [strContains]; exact splitAtSub_isSome

theorem failoverLoop_all_quota (behave : Credential → KeyBehavior) :
    ∀ (keys : List Credential) (att : Nat) (le : String),
      allQuotaErrs behave keys →
      (failoverLoop behave keys att le).result = none ∧
      (failoverLoop behave keys att le).attempted = att + keys.length := by
  intro keys
  induction keys with
  | nil => intro att le _; exact ⟨rfl, rfl⟩
  | cons k rest ih =>
    intro att le hq
    obtain ⟨e, he, hqe⟩ := hq k (List.mem_cons_self k rest)
    have hrest : allQuotaErrs behave rest := fun x hx => hq x (List.mem_cons_of_mem _ hx)
    rw [failoverLoop, he]
    simp only [hqe, if_true]
    obtain ⟨h1, h2⟩ := ih (att + 1) e hrest
    refine ⟨h1, ?_⟩
    rw [h2, List.length_cons]
    omega

theorem failoverLoop_append_quota (behave : Credential → KeyBehavior) :
    ∀ (pre rest : List Credential) (att : Nat) (le : String),
      allQuotaErrs behave pre →
      ∃ le', failoverLoop behave (pre ++ rest) att le =
        failoverLoop behave rest (att + pre.length) le' := by
  intro pre
  induction pre with
  | nil => intro rest att le _; exact ⟨le, rfl⟩
  | cons k pre' ih =>
    intro rest att le hq
    obtain ⟨e, he, hqe⟩ := hq k (List.mem_cons_self k pre')
    have hpre' : allQuotaErrs behave pre' := fun x hx => hq x (List.mem_cons_of_mem _ hx)
    rw [List.cons_append, failoverLoop, he]
    simp only [hqe, if_true]
    obtain ⟨le', hle'⟩ := ih rest (att + 1) e hpre'
    refine ⟨le', ?_⟩
    rw [hle', List.length_cons]
    congr 1
    omega

theorem failoverLoop_result_model (behave : Credential → KeyBehavior) :
    ∀ (keys : List Credential) (att : Nat) (le : String) (resp m : String),
      (failoverLoop behave keys att le).result = some (resp, m) →
      ∃ avail, m = selectModel avail := by
  intro keys
  induction keys with
  | nil => intro att le resp m h; cases h
  | cons k rest ih =>
    intro att le resp m h
    rw [failoverLoop] at h
    cases ha : attemptKey (behave k) with
    | ok v =>
      rw [ha] at h
      simp only at h
      rw [attemptKey] at ha
      cases hl : (behave k).listModels with
      | error e => rw [hl] at ha; cases ha
      | ok avail =>
        rw [hl] at ha
        dsimp only at ha
        cases hg : (behave k).generate (selectModel avail) with
        | error e => rw [hg] at ha; cases ha
        | ok resp' =>
          rw [hg] at ha
          cases ha
          cases h
          exact ⟨avail, rfl⟩
    | error e =>
      rw [ha] at h
      by_cases hq : isQuotaError e = true
      · simp only [hq, if_true] at h
        exact ih (att + 1) e resp m h
      · simp only [hq, if_false] at h
        cases h

/-- First satisfying element wins in `List.find?`. -/
theorem find?_first {α : Type} (p : α → Bool) :
    ∀ (pre : List α) (t : α) (suf : List α),
      (∀ x ∈ pre, p x = false) → p t = true →
      List.find? p (pre ++ t :: suf) = some t := by
  intro pre
  induction pre with
  | nil => intro t suf _ ht; simp [List.find?_cons_of_pos _ ht]
  | cons a pre' ih =>
    intro t suf hpre ht
    have ha : p a = false := hpre a (List.mem_cons_self a pre')
    rw [List.cons_append, List.find?_cons_of_neg _ (by rw [ha]; exact Bool.false_ne_true)]
    exact ih t suf (fun x hx => hpre x (List.mem_cons_of_mem _ hx)) ht

theorem gcwf_none (keys : List Credential) (behave : Credential → KeyBehavior)
    (att : Nat) (le : String) (h : failoverLoop behave keys 0 "" = ⟨none, att, le⟩) :
    generate_content_with_failover keys behave =
      ⟨none, att, some (errorBannerMsg keys.length le)⟩ := by
  simp only [generate_content_with_failover, h]

theorem gcwf_some (keys : List Credential) (behave : Credential → KeyBehavior)
    (v : String × String) (att : Nat) (le : String)
    (h : failoverLoop behave keys 0 "" = ⟨some v, att, le⟩) :
    generate_content_with_failover keys behave = ⟨some v, att, none⟩ := by
  simp only [generate_content_with_failover, h]

theorem gcwf_result (keys : List Credential) (behave : Credential → KeyBehavior) :
    (generate_content_with_failover keys behave).result =
      (failoverLoop behave keys 0 "").result := by
  simp only [generate_content_with_failover]
  cases h : (failoverLoop behave keys 0 "").result with
  | none => simp [h]
  | some v => simp [h]

theorem gcwf_attempted (keys : List Credential) (behave : Credential → KeyBehavior) :
    (generate_content_with_failover keys behave).attempted =
      (failoverLoop behave keys 0 "").attempted := by
  simp only [generate_content_with_failover]
  cases h : (failoverLoop behave keys 0 "").result with
  | none => simp [h]
  | some v => simp [h]

/-- Claim C1: with every credential failing on a quota-style error the
dispatcher attempts all `N` credentials and fails, and with the k-th
credential succeeding after quota-style failures it returns that
credential's response and selected model after exactly `k` attempts. -/
theorem failover_exhaustion_and_first_success (keys : List Credential)
    (behave : Credential → KeyBehavior) :
    (allQuotaErrs behave keys →
      (generate_content_with_failover keys behave).result = none ∧
      (generate_content_with_failover keys behave).attempted = keys.length) ∧
    (∀ pre k post resp model, keys = pre ++ k :: post →
      allQuotaErrs behave pre →
      attemptKey (behave k) = .ok (resp, model) →
      (generate_content_with_failover keys behave).result = some (resp, model) ∧
      (generate_content_with_failover keys behave).attempted = pre.length + 1) := by
  constructor
  · intro hq
    obtain ⟨h1, h2⟩ := failoverLoop_all_quota behave keys 0 "" hq
    refine ⟨?_, ?_⟩
    · rw [gcwf_result]; exact h1
    · rw [gcwf_attempted, h2]; omega
  · intro pre k post resp model hdecomp hq hok
    subst hdecomp
    obtain ⟨le', hle⟩ := failoverLoop_append_quota behave pre (k :: post) 0 "" hq
    have hloop : failoverLoop behave (pre ++ k :: post) 0 "" =
        ⟨some (resp, model), pre.length + 1, le'⟩ := by
      rw [hle, failoverLoop, hok]
      simp only [Nat.zero_add]
    refine ⟨?_, ?_⟩
    · rw [gcwf_result, hloop]
    · rw [gcwf_attempted, hloop]

theorem failover_exhaustion_and_first_success_witness :
    ((generate_content_with_failover ["key-a", "key-b"] quotaOnlyBehavior).result = none ∧
     (generate_content_with_failover ["key-a", "key-b"] quotaOnlyBehavior).attempted = 2) ∧
    ((generate_content_with_failover ["key-a", "key-b", "key-c"] secondKeySucceeds).result =
        some ("GRADED", "gemini-2.5-flash") ∧
     (generate_content_with_failover ["key-a", "key-b", "key-c"] secondKeySucceeds).attempted = 2) := by
  constructor
  · exact (failover_exhaustion_and_first_success ["key-a", "key-b"] quotaOnlyBehavior).1
      (fun kk _ => ⟨"429 Resource has been exhausted", rfl, by decide⟩)
  · refine (failover_exhaustion_and_first_success ["key-a", "key-b", "key-c"]
      secondKeySucceeds).2 ["key-a"] "key-b" ["key-c"] "GRADED" "gemini-2.5-flash" rfl ?_ ?_
    · intro kk hk
      have : kk = "key-a" := List.mem_singleton.mp hk
      subst this
      exact ⟨"Quota exceeded for quota metric", rfl, by decide⟩
    · rfl

/-- Claim C2: an attempt's error is classified retryable exactly when its
text contains `"429"`, or its lower-cased text contains `"quota"` or
`"limit"`; on a non-retryable error after a run of quota-style failures
the loop stops at that credential's position with no later attempts. -/
theorem failover_error_classification_fail_fast (behave : Credential → KeyBehavior) :
    (∀ s : String, isQuotaError s = true ↔
      ((∃ l r, s.toList = l ++ "429".toList ++ r) ∨
       (∃ l r, (strLower s).toList = l ++ "quota".toList ++ r) ∨
       (∃ l r, (strLower s).toList = l ++ "limit".toList ++ r))) ∧
    (∀ pre k post e, allQuotaErrs behave pre →
      attemptKey (behave k) = .error e →
      isQuotaError e = false →
      (generate_content_with_failover (pre ++ k :: post) behave).result = none ∧
      (generate_content_with_failover (pre ++ k :: post) behave).attempted = pre.length + 1) := by
  constructor
  · intro s
    rw [isQuotaError, Bool.or_eq_true, Bool.or_eq_true,
      strContains_iff, strContains_iff, strContains_iff]
    exact or_assoc
  · intro pre k post e hq herr hnq
    obtain ⟨le', hle⟩ := failoverLoop_append_quota behave pre (k :: post) 0 "" hq
    have hloop : failoverLoop behave (pre ++ k :: post) 0 "" =
        ⟨none, pre.length + 1, e⟩ := by
      rw [hle, failoverLoop, herr]
      simp only [hnq, Bool.false_eq_true, if_false, Nat.zero_add]
    refine ⟨?_, ?_⟩
    · rw [gcwf_result, hloop]
    · rw [gcwf_attempted, hloop]

theorem failover_error_classification_fail_fast_witness :
    (isQuotaError "rate limit" = true ∧
     isQuotaError "Internal server error 500" = false) ∧
    ((generate_content_with_failover ["key-1", "key-2", "key-3"] quotaThenFatal).result = none ∧
     (generate_content_with_failover ["key-1", "key-2", "key-3"] quotaThenFatal).attempted = 2) := by
  refine ⟨⟨by decide, by decide⟩, ?_⟩
  have h := (failover_error_classification_fail_fast quotaThenFatal).2
    ["key-1"] "key-2" ["key-3"] "Internal server error 500" ?_ ?_ ?_
  · exact h
  · intro kk hk
    have : kk = "key-1" := List.mem_singleton.mp hk
    subst this
    exact ⟨"rate limit", rfl, by decide⟩
  · rfl
  · decide

/-- Claim C8: model selection walks the static ranked priority list and
takes the first entry that is a substring of some usable identifier,
falling back to `"gemini-1.5-flash"` when none matches; hence any model
identifier returned on success is in the priority list or is that
fallback. -/
theorem model_selection_priority_walk :
    (∀ avail pre t suf, model_priority = pre ++ t :: suf →
      (∀ p ∈ pre, ∀ name ∈ avail, strContains name p = false) →
      (∃ name ∈ avail, strContains name t = true) →
      selectModel avail = t) ∧
    (∀ avail, (∀ t ∈ model_priority, ∀ name ∈ avail, strContains name t = false) →
      selectModel avail = "gemini-1.5-flash") ∧
    (∀ avail, selectModel avail ∈ model_priority ∨ selectModel avail = "gemini-1.5-flash") ∧
    (∀ keys behave resp m,
      (generate_content_with_failover keys behave).result = some (resp, m) →
      m ∈ model_priority ∨ m = "gemini-1.5-flash") := by
  have hmem : ∀ avail, selectModel avail ∈ model_priority ∨
      selectModel avail = "gemini-1.5-flash" := by
    intro avail
    rw [selectModel]
    cases h : model_priority.find?
        (fun target => avail.any (fun m_name => strContains m_name target)) with
    | some t => exact Or.inl (List.mem_of_find?_eq_some h)
    | none => exact Or.inr rfl
  refine ⟨?_, ?_, hmem, ?_⟩
  · intro avail pre t suf hdecomp hpre ht
    have hft : (fun target => avail.any (fun m_name => strContains m_name target)) t = true := by
      simp only [List.any_eq_true]
      obtain ⟨name, hn, hc⟩ := ht
      exact ⟨name, hn, hc⟩
    have hfp : ∀ x ∈ pre,
        (fun target => avail.any (fun m_name => strContains m_name target)) x = false := by
      intro x hx
      simp only [List.any_eq_false]
      intro name hn
      rw [hpre x hx name hn]
      exact Bool.false_ne_true
    rw [selectModel, hdecomp, find?_first _ pre t suf hfp hft]
  · intro avail hnone
    rw [selectModel, List.find?_eq_none.mpr ?_]
    intro t ht
    simp only [List.any_eq_true, not_exists, not_and]
    intro name hn
    rw [hnone t ht name hn]
    exact Bool.false_ne_true
  · intro keys behave resp m h
    rw [gcwf_result] at h
    obtain ⟨avail, hm⟩ := failoverLoop_result_model behave keys 0 "" resp m h
    rw [hm]
    exact hmem avail

theorem model_selection_priority_walk_witness :
    selectModel ["models/gemini-2.0-flash-001"] = "gemini-2.0-flash" := by
  refine model_selection_priority_walk.1 ["models/gemini-2.0-flash-001"]
    ["gemini-3-flash-preview", "gemini-2.5-flash", "gemini-2.5-flash-lite"]
    "gemini-2.0-flash" ["gemini-1.5-pro", "gemini-1.5-flash"] rfl ?_ ?_
  · intro p hp name hn
    fin_cases hp <;> fin_cases hn <;> decide
  · exact ⟨"models/gemini-2.0-flash-001", by decide, by decide⟩

/-- Claim C9: the dispatcher treats the process-wide credential
collection as read-only: the global state comes back unchanged, and the
randomisation only determines the traversal order of the per-request
copy that the loop consumes. -/
theorem dispatch_preserves_global_keys (g : Globals)
    (shuffle : List Credential → List Credential) (behave : Credential → KeyBehavior) :
    (dispatch_with_globals g shuffle behave).1 = g ∧
    (dispatch_with_globals g shuffle behave).2 =
      generate_content_with_failover (shuffle g.ALL_KEYS) behave :=
  ⟨rfl, rfl⟩

/-- Claim C10: whenever no attempt succeeds, the returned value is
exactly the pair `(None, None)` (it carries neither the error text nor
the attempted count), and the `st.error` banner always interpolates the
total number of keys `len(keys_to_try)`, whatever the attempted count;
on success no banner is emitted. -/
theorem dispatch_failure_pair_and_banner (keys : List Credential)
    (behave : Credential → KeyBehavior) :
    ((generate_content_with_failover keys behave).result = none →
      ∃ e, (generate_content_with_failover keys behave).banner =
        some (errorBannerMsg keys.length e)) ∧
    (∀ v, (generate_content_with_failover keys behave).result = some v →
      (generate_content_with_failover keys behave).banner = none) := by
  constructor
  · intro hr
    rw [gcwf_result] at hr
    cases hE : failoverLoop behave keys 0 "" with
    | mk r a l =>
      rw [hE] at hr
      simp only at hr
      subst hr
      exact ⟨l, by rw [gcwf_none keys behave a l hE]⟩
  · intro v hr
    rw [gcwf_result] at hr
    cases hE : failoverLoop behave keys 0 "" with
    | mk r a l =>
      rw [hE] at hr
      simp only at hr
      subst hr
      rw [gcwf_some keys behave v a l hE]

theorem dispatch_failure_pair_and_banner_witness :
    (generate_content_with_failover ["k1", "k2", "k3"] fatalFirstBehavior).result = none ∧
    (generate_content_with_failover ["k1", "k2", "k3"] fatalFirstBehavior).attempted = 1 ∧
    (∃ e, (generate_content_with_failover ["k1", "k2", "k3"] fatalFirstBehavior).banner =
      some (errorBannerMsg 3 e)) := by
  refine ⟨rfl, rfl, ?_⟩
  exact (dispatch_failure_pair_and_banner ["k1", "k2", "k3"] fatalFirstBehavior).1 rfl

/-- Claim C3: `calculate_overall` returns `'-'` whenever fewer than four
of the collected values parse as numbers; with four numeric values of
nonnegative sum it averages them and applies the band rule — fractional
part strictly below `0.25` rounds down to the whole number, in
`[0.25, 0.75)` rounds to the half, and at least `0.75` rounds up to the
next whole number (the whole-number branch renders as a Python `int`,
the other two as floats). -/
theorem calculate_overall_band_rounding (scores : List Json) :
    ((scores.filterMap pyFloatVal).length < 4 → calculate_overall scores = "-") ∧
    ((scores.filterMap pyFloatVal).length = 4 →
     (0:ℚ) ≤ (scores.filterMap pyFloatVal).sum →
      ((Int.fract ((scores.filterMap pyFloatVal).sum / 4) < 1/4 →
        calculate_overall scores = toString ⌊(scores.filterMap pyFloatVal).sum / 4⌋) ∧
       (1/4 ≤ Int.fract ((scores.filterMap pyFloatVal).sum / 4) →
        Int.fract ((scores.filterMap pyFloatVal).sum / 4) < 3/4 →
        calculate_overall scores =
          floatRepr ((⌊(scores.filterMap pyFloatVal).sum / 4⌋ : ℚ) + 1/2)) ∧
       (3/4 ≤ Int.fract ((scores.filterMap pyFloatVal).sum / 4) →
        calculate_overall scores =
          floatRepr ((⌊(scores.filterMap pyFloatVal).sum / 4⌋ : ℚ) + 1)))) := by
  constructor
  · intro hlen
    simp only [calculate_overall]
    rw [if_pos (Or.inr hlen)]
  · intro h4 hsum
    simp only [calculate_overall]
    generalize hg : List.filterMap pyFloatVal scores = valid at h4 hsum ⊢
    have hne : ¬((valid.isEmpty = true) ∨ valid.length < 4) := by
      rintro (hI | hlt)
      · rw [List.isEmpty_iff] at hI
        subst hI
        simp at h4
      · omega
    rw [if_neg hne]
    have hlenq : ((valid.length : ℕ) : ℚ) = 4 := by rw [h4]; norm_num
    have havg : ratDiv (ratSum valid) ((valid.length : ℕ) : ℚ) = valid.sum / 4 := by
      rw [ratDiv_eq, ratSum_eq, hlenq]
    rw [havg]
    have h0 : (0:ℚ) ≤ valid.sum / 4 := div_nonneg hsum (by norm_num)
    rw [pyInt_eq_floor _ h0]
    have hdec : ratSub (valid.sum / 4) ((⌊valid.sum / 4⌋ : ℤ) : ℚ) =
        Int.fract (valid.sum / 4) := by
      rw [ratSub_eq, Int.self_sub_floor]
    rw [hdec]
    have h14 : (mkRat 1 4 : ℚ) = 1/4 := by
      rw [Rat.mkRat_eq_divInt, Rat.divInt_eq_div]; norm_num
    have h34 : (mkRat 3 4 : ℚ) = 3/4 := by
      rw [Rat.mkRat_eq_divInt, Rat.divInt_eq_div]; norm_num
    have h12 : (mkRat 1 2 : ℚ) = 1/2 := by
      rw [Rat.mkRat_eq_divInt, Rat.divInt_eq_div]; norm_num
    rw [h14, h34, ratAdd_eq, ratAdd_eq, h12]
    refine ⟨?_, ?_, ?_⟩
    · intro hf
      rw [if_pos hf]
    · intro hf1 hf2
      rw [if_neg (not_lt.mpr hf1), if_pos hf2]
    · intro hf
      rw [if_neg (not_lt.mpr (le_trans (by norm_num) hf)), if_neg (not_lt.mpr hf)]

theorem calculate_overall_band_rounding_witness :
    (([Json.str "6", Json.str "6", Json.str "7"].filterMap pyFloatVal).length < 4 ∧
      calculate_overall [Json.str "6", Json.str "6", Json.str "7"] = "-") ∧
    calculate_overall [Json.str "6", Json.str "6", Json.str "7", Json.str "7"] = "6.5" := by
  constructor
  · exact ⟨by decide,
      (calculate_overall_band_rounding [Json.str "6", Json.str "6", Json.str "7"]).1 (by decide)⟩
  · have hsum : ([Json.str "6", Json.str "6", Json.str "7", Json.str "7"].filterMap
        pyFloatVal).sum = 26 := by
      rw [← ratSum_eq]; decide
    have h := (calculate_overall_band_rounding
        [Json.str "6", Json.str "6", Json.str "7", Json.str "7"]).2
      (by decide) (by rw [hsum]; norm_num)
    have hf : Int.fract ((([Json.str "6", Json.str "6", Json.str "7", Json.str "7"].filterMap
        pyFloatVal).sum) / 4) = 1/2 := by
      rw [hsum]; norm_num [Int.fract]
    have h2 := h.2.1 (by rw [hf]; norm_num) (by rw [hf]; norm_num)
    rw [h2, hsum]
    have hfl : (⌊(26:ℚ) / 4⌋ : ℤ) = 6 := by norm_num
    rw [hfl]
    have : ((6:ℤ) : ℚ) + 1/2 = mkRat 13 2 := by
      rw [Rat.mkRat_eq_divInt, Rat.divInt_eq_div]; norm_num
    rw [this]
    decide

theorem layerResolve_fst (full_text : String) (atoms : List RAtom) (key : String) :
    (layerResolve full_text atoms key).1 =
      (regexScore atoms (markdown_of full_text)).getD
        ((jsonSubScore full_text key).elim "-" pyStr) := by
  rw [layerResolve]
  cases h1 : regexScore atoms (markdown_of full_text) with
  | some s => simp
  | none =>
    cases h2 : jsonSubScore full_text key with
    | none => simp
    | some v => simp

theorem process_response_ok_parts (full_text md : String) (d : ReportData)
    (h : process_response full_text = .ok (md, d)) :
    md = markdown_of full_text ∧ d.originalScore = originalScore_of full_text := by
  rw [process_response] at h
  cases hA : partA_of full_text with
  | error e => rw [hA] at h; cases h
  | ok trip =>
    obtain ⟨a, b, c⟩ := trip
    rw [hA] at h
    simp only at h
    have h' := Except.ok.inj h
    have hmd : markdown_of full_text = md := congrArg Prod.fst h'
    have hd := congrArg Prod.snd h'
    simp only at hd
    exact ⟨hmd.symm, by rw [← hd]⟩

/-- Claim C6: each sub-score is resolved by two layers in order — first
the case-insensitive labelled-score regex over the narrative
(`markdown_part`), then, only when that fails, the parsed structured
record's `original_score` field (stringified), with `'-'` when neither
layer yields a value. -/
theorem two_layer_score_resolution (full_text md : String) (d : ReportData)
    (h : process_response full_text = .ok (md, d)) :
    md = markdown_of full_text ∧
    d.originalScore.task_achievement =
      (regexScore taPat (markdown_of full_text)).getD
        ((jsonSubScore full_text "task_achievement").elim "-" pyStr) ∧
    d.originalScore.cohesion_coherence =
      (regexScore ccPat (markdown_of full_text)).getD
        ((jsonSubScore full_text "cohesion_coherence").elim "-" pyStr) ∧
    d.originalScore.lexical_resource =
      (regexScore lrPat (markdown_of full_text)).getD
        ((jsonSubScore full_text "lexical_resource").elim "-" pyStr) ∧
    d.originalScore.grammatical_range =
      (regexScore grPat (markdown_of full_text)).getD
        ((jsonSubScore full_text "grammatical_range").elim "-" pyStr) := by
  obtain ⟨hmd, hos⟩ := process_response_ok_parts full_text md d h
  refine ⟨hmd, ?_, ?_, ?_, ?_⟩ <;>
    rw [hos, originalScore_of, ← layerResolve_fst]

/-- Claim C7: the `overall` field of the produced `originalScore` is
always `calculate_overall` of the `found_scores` recovered by the
two-layer resolution (or its `'-'` default when nothing was recovered);
the block's own `original_score.overall` figure is never read —
`found_scores_of` consults only the four sub-score keys. -/
theorem overall_from_recovered_subscores (full_text md : String) (d : ReportData)
    (h : process_response full_text = .ok (md, d)) :
    d.originalScore.overall =
      (if (found_scores_of full_text).isEmpty then "-"
       else calculate_overall (found_scores_of full_text)) := by
  obtain ⟨_, hos⟩ := process_response_ok_parts full_text md d h
  rw [hos, originalScore_of]

set_option maxRecDepth 100000 in
theorem two_layer_score_resolution_witness :
    ∃ md d, process_response c6_text = Except.ok (md, d) ∧
      d.originalScore.task_achievement =
        (regexScore taPat (markdown_of c6_text)).getD
          ((jsonSubScore c6_text "task_achievement").elim "-" pyStr) ∧
      d.originalScore.task_achievement = "6.5" ∧
      d.originalScore.cohesion_coherence = "None" ∧
      d.originalScore.lexical_resource = "8" ∧
      d.originalScore.grammatical_range = "-" := by
  have h : process_response c6_text = Except.ok ("Lexical Resource Score 8",
      ⟨.arr [], .null, .null, ⟨"6.5", "None", "8", "-", "-"⟩⟩) := rfl
  exact ⟨_, _, h, (two_layer_score_resolution c6_text _ _ h).2.1, rfl, rfl, rfl, rfl⟩

set_option maxRecDepth 100000 in
theorem overall_from_recovered_subscores_witness :
    ∃ md d, process_response c7_text = Except.ok (md, d) ∧
      d.originalScore.overall =
        (if (found_scores_of c7_text).isEmpty then "-"
         else calculate_overall (found_scores_of c7_text)) ∧
      d.originalScore.overall = "6.5" ∧
      d.originalScore.overall ≠ "9.0" := by
  have h : process_response c7_text = Except.ok ("Report.",
      ⟨.arr [], .null, .null, ⟨"6", "6", "7", "7", "6.5"⟩⟩) := rfl
  exact ⟨_, _, h, overall_from_recovered_subscores c7_text _ _ h, rfl, by decide⟩

/-- Claim C5 (amended): when the fenced block is absent (or empty, which
the code treats the same through Python truthiness), `process_response`
returns without raising, with the whole input as the narrative, an empty
error list, absent annotated text and revised score; the sub-scores are
resolved by the narrative regex layer alone, unresolved fields
(including `overall` when fewer than four sub-scores resolve — in
particular every field for the empty string) staying `'-'`. -/
theorem interpret_without_block (full_text : String)
    (h : pyTruthyStr (clean_json full_text) = false) :
    process_response full_text =
      .ok (full_text, ⟨.arr [], .null, .null, regexOnlyScore full_text⟩) := by
  have hmd : markdown_of full_text = full_text := by
    rw [markdown_of, h]
    simp
  have hA : partA_of full_text = .ok (.arr [], .null, .null) := by
    rw [partA_of, h]
    simp
  have hjs : ∀ key, jsonSubScore full_text key = none := by
    intro key
    rw [jsonSubScore, h]
    simp
  have hlr : ∀ atoms key, layerResolve full_text atoms key =
      regexOnlyContrib atoms full_text := by
    intro atoms key
    rw [layerResolve, regexOnlyContrib, hmd]
    cases hr : regexScore atoms full_text with
    | some s => rfl
    | none => rw [hjs key]
  have hfound : found_scores_of full_text = regexOnlyFound full_text := by
    rw [found_scores_of, regexOnlyFound, hlr, hlr, hlr, hlr]
  have hos : originalScore_of full_text = regexOnlyScore full_text := by
    rw [originalScore_of, regexOnlyScore, hlr, hlr, hlr, hlr, hfound]
  rw [process_response, hA]
  simp only [hmd, hos]

theorem interpret_without_block_witness :
    process_response "" =
      Except.ok ("", ⟨.arr [], .null, .null, ⟨"-", "-", "-", "-", "-"⟩⟩) := by
  rw [interpret_without_block "" rfl]
  rfl

/-- Claim C5 counterexample: `"Task Achievement Score 7"` contains no
fenced structured block, yet the interpreter resolves
`task_achievement` to `"7"` through the narrative regex layer, so not
every `originalScore` field is the unavailable sentinel `'-'`. -/
theorem interpret_without_block_counterexample :
    (∃ d, process_response c5_text = Except.ok (c5_text, d) ∧
      d.originalScore.task_achievement = "7") ∧ ("7" : String) ≠ "-" := by
  refine ⟨⟨⟨.arr [], .null, .null, ⟨"7", "-", "-", "-", "-"⟩⟩, rfl, rfl⟩, by decide⟩

set_option maxRecDepth 400000 in
/-- Claim C4 counterexample: on a well-formed block with sub-scores
`[6.0, 6.0, 6.0, 7.0]` (average `6.25`) the interpreter computes the
overall `"6.5"`, not the `6.0` the claim asserts — the code's
`decimal < 0.25` comparison is strict, so a fractional part of exactly
`0.25` falls into the round-to-half branch. -/
theorem interpret_quarter_boundary_counterexample :
    (∃ md d, process_response c4_text_a = Except.ok (md, d) ∧
      d.originalScore.overall = "6.5") ∧
    ("6.5" : String) ≠ "6.0" ∧
    pyFloatOfString "6.5" ≠ pyFloatOfString "6.0" := by
  refine ⟨⟨"Narrative section.",
    ⟨.arr [], .null, .null, ⟨"6.0", "6.0", "6.0", "7.0", "6.5"⟩⟩, rfl, rfl⟩, by decide, by decide⟩

set_option maxRecDepth 400000 in
/-- Claim C4 (amended): on raw text carrying a well-formed structured
block with all four sub-scores present and valid, the interpreter
recovers all four sub-scores exactly and derives the overall by the
code's band rule: `[6.0, 6.0, 6.0, 7.0]` (average 6.25) gives `"6.5"`,
`[6, 6, 7, 7]` (average 6.5) gives `"6.5"`, `[6, 7, 7, 7]` (average
6.75) gives `"7.0"`, and `[6, 6, 6, 6.0]` (average 6.0) gives the
whole-number rendering `"6"`. -/
theorem interpret_roundtrip_instances :
    process_response c4_text_a = Except.ok ("Narrative section.",
      ⟨.arr [], .null, .null, ⟨"6.0", "6.0", "6.0", "7.0", "6.5"⟩⟩) ∧
    process_response c4_text_b = Except.ok ("Narrative section.",
      ⟨.arr [], .null, .null, ⟨"6", "6", "7", "7", "6.5"⟩⟩) ∧
    process_response c4_text_c = Except.ok ("Narrative section.",
      ⟨.arr [], .null, .null, ⟨"6", "7", "7", "7", "7.0"⟩⟩) ∧
    process_response c4_text_d = Except.ok ("Narrative section.",
      ⟨.arr [], .null, .null, ⟨"6", "6", "6", "6.0", "6"⟩⟩) :=
  ⟨rfl, rfl, rfl, rfl⟩
